import Mathlib

/-!
Shallow embedding of the client-side table state engine of the
`all-purpose-table` widget (source: `src/src/ColumnVisibilityToggle.jsx`,
Table component; the JSX variant in `src/vite.config.js` is identical in
the modelled parts).

Modelling conventions:
* JavaScript field values are modelled by `JVal` (string / integer number /
  null); absent properties are `Option.none` (i.e. `undefined`).  Numbers are
  modelled as integers: none of the modelled code depends on non-integral
  float behaviour.
* Raw caller-supplied row entries are modelled by `JSValue`, which also
  covers the non-object entries the normalizer must drop.
* A normalized row is modelled as a JavaScript object: an insertion-ordered
  association list with assignment-overwrite semantics (`jsSet`).
-/

/-- A JavaScript value usable as a field of a row object: a string, an
(integer) number, or `null`.  An absent field is represented by `none`
at use sites. -/
inductive JVal where
  | str (s : String)
  | num (n : Int)
  | nullv
deriving DecidableEq, Repr

/-- An arbitrary JavaScript value appearing as an entry of the caller's
`manualRowData` array: `undefined`, `null`, a boolean, a number, a string,
or an object (a record of fields). -/
inductive JSValue where
  | undef
  | nullv
  | boolv (b : Bool)
  | numv (n : Int)
  | strv (s : String)
  | obj (fields : List (String × JVal))
deriving DecidableEq, Repr

/-- JavaScript truthiness (`.filter(Boolean)` in `rows`): `undefined`,
`null`, `false`, `0` and `""` are falsy; every object is truthy. -/
def jsTruthy : JSValue → Bool
  | .undef => false
  | .nullv => false
  | .boolv b => b
  | .numv n => n != 0
  | .strv s => s != ""
  | .obj _ => true

/-- `typeof r === "object"` (the second filter in `rows`): true for objects
and for `null`, false for every other primitive. -/
def typeofIsObject : JSValue → Bool
  | .nullv => true
  | .obj _ => true
  | _ => false

/-- Whether an entry is an object-valued record (the entries normalization
keeps, per the spec's `rows.filter(isObject)`). -/
def isObjectEntry : JSValue → Bool
  | .obj _ => true
  | _ => false

/-- Optional-chained property access `v?.[key]`: a field lookup on objects,
`undefined` on every non-object. -/
def fieldOf : JSValue → String → Option JVal
  | .obj fs, key => fs.lookup key
  | _, _ => none

/-- JavaScript `String(v)` coercion for the modelled values: strings are
unchanged, numbers render in decimal, `null` renders as `"null"`. -/
def jsStringOf : JVal → String
  | .str s => s
  | .num n => toString n
  | .nullv => "null"

/-- JavaScript `String.prototype.trim`: removes leading and trailing
whitespace.  (Defined over the character list so that it reduces in the
kernel; the JS and Lean whitespace sets agree on the characters the
modelled code can meet.) -/
def jsTrim (s : String) : String :=
  ⟨((s.data.dropWhile Char.isWhitespace).reverse.dropWhile
      Char.isWhitespace).reverse⟩

/-- The fixed fallback identifier fields consulted by `makeSafeId`
(`order_id`, `bom_id`, `bom_workstation_status_id`, `bom_data_id`,
`unique_task_info_id`, `order_data_id`), in source order. -/
def fallbackIdFields : List String :=
  ["order_id", "bom_id", "bom_workstation_status_id", "bom_data_id",
   "unique_task_info_id", "order_data_id"]

/-- The `v1` candidate of `makeSafeId`: the trimmed string coercion of the
raw row's `id` field when that field is neither `undefined` nor `null` and
trims to a non-empty string, else `""`. -/
def v1Of (full : JSValue) : String :=
  match fieldOf full "id" with
  | none => ""
  | some .nullv => ""
  | some v => if jsTrim (jsStringOf v) = "" then "" else jsTrim (jsStringOf v)

/-- The `v2` candidate of `makeSafeId`: the fallback identifier fields that
are neither `undefined` nor `null` and coerce to a non-empty string, each
coerced with `String(·)` and joined with `"-"`. -/
def v2Of (full : JSValue) : String :=
  String.intercalate "-"
    ((fallbackIdFields.map (fieldOf full)).filterMap fun o =>
      match o with
      | none => none
      | some .nullv => none
      | some v => if jsStringOf v = "" then none else some (jsStringOf v))

/-- `makeSafeId` from `rows`: the trimmed non-empty `id` field if present,
else the hyphen-joined fallback composite suffixed with `-row` and the
positional index (JS template `` `${v2}-row${idx}` ``). -/
def makeSafeId (full : JSValue) (idx : Nat) : String :=
  if v1Of full = "" then v2Of full ++ "-row" ++ Nat.repr idx else v1Of full

/-- A value stored in a property of a normalized row object: the computed
id and materialized fields are strings or numbers, `_meta` holds the raw
entry. -/
inductive RVal where
  | str (s : String)
  | num (n : Int)
  | raw (v : JSValue)
deriving DecidableEq, Repr

/-- A normalized row, modelled as the JavaScript object built by `rows`:
an insertion-ordered association list of properties. -/
abbrev NormalizedRow := List (String × RVal)

/-- JavaScript property assignment `o[k] = v`: overwrites the value in
place when the key exists, else appends the new property. -/
def jsSet (o : List (String × RVal)) (k : String) (v : RVal) :
    List (String × RVal) :=
  if o.any (fun p => p.1 == k) then
    o.map (fun p => if p.1 == k then (p.1, v) else p)
  else
    o ++ [(k, v)]

/-- `full?.[accessor] ?? ""`: the field value with `undefined` and `null`
coalesced to the empty string. -/
def materializeField (full : JSValue) (accessor : String) : RVal :=
  match fieldOf full accessor with
  | none => .str ""
  | some .nullv => .str ""
  | some (.str s) => .str s
  | some (.num n) => .num n

/-- A declared column width / minimum width: a number, a CSS-like string,
or absent (`undefined`). -/
inductive WidthVal where
  | num (n : Int)
  | str (s : String)
  | undef
deriving DecidableEq, Repr

/-- A column definition (`TableHeader` interface); only the fields the
state engine reads are kept. -/
structure TableHeader where
  accessor : String
  label : String
  isSortable : Bool
  width : WidthVal
  minWidth : WidthVal
deriving DecidableEq, Repr

/-- The body of the `src.map((full, idx) => ...)` callback in `rows`:
builds `{ id, "#": idx + 1, _meta: full }` and then assigns one property
per header accessor not in `["#", "details_meta"]`, with value
`full?.[accessor] ?? ""`. -/
def normalizeEntry (headers : List TableHeader) (full : JSValue)
    (idx : Nat) : NormalizedRow :=
  headers.foldl
    (fun base h =>
      if h.accessor ∈ ["#", "details_meta"] then base
      else jsSet base h.accessor (materializeField full h.accessor))
    [("id", .str (makeSafeId full idx)), ("#", .num (idx + 1)),
     ("_meta", .raw full)]

/-- The filtered source list of `rows`:
`manualRowData.filter(Boolean).filter((r) => typeof r === "object")`. -/
def srcEntries (entries : List JSValue) : List JSValue :=
  (entries.filter jsTruthy).filter typeofIsObject

/-- The `rows` derivation applied to an array: filter out falsy and
non-object entries, then map each kept entry (with its position) to a
normalized row object. -/
def normalizeEntries (headers : List TableHeader) (entries : List JSValue) :
    List NormalizedRow :=
  (srcEntries entries).mapIdx fun idx full => normalizeEntry headers full idx

/-- The caller-supplied `manualRowData` value: either an array of entries
or any non-array value. -/
inductive RowDataInput where
  | arr (entries : List JSValue)
  | notArray (v : JSValue)
deriving DecidableEq, Repr

/-- The `rows` memo: `Array.isArray` gate followed by normalization; any
non-array input yields the empty row list. -/
def rowsOf (headers : List TableHeader) : RowDataInput → List NormalizedRow
  | .arr entries => normalizeEntries headers entries
  | .notArray _ => []

/-- Lexicographic (code-unit-wise) comparison of character lists: the
semantics of the JavaScript `<` relational operator on two strings. -/
def charListLt : List Char → List Char → Bool
  | [], [] => false
  | [], _ :: _ => true
  | _ :: _, [] => false
  | c :: cs, d :: ds =>
    if c.toNat < d.toNat then true
    else if d.toNat < c.toNat then false
    else charListLt cs ds

/-- JavaScript string `<`: lexicographic comparison of the two strings. -/
def jsStrLt (s t : String) : Bool := charListLt s.data t.data

/-- Numeric value of a decimal digit character. -/
def digitVal (c : Char) : Nat := c.toNat - '0'.toNat

/-- Value of a list of decimal digit characters. -/
def decListToNat (cs : List Char) : Nat :=
  cs.foldl (fun a c => a * 10 + digitVal c) 0

/-- JavaScript `ToNumber` applied to a string (as used by `<`/`>` on a
string/number operand pair), restricted to integer numerals: trimmed empty
string is `0`, an optionally signed all-digit string is its value, anything
else is `NaN` (`none`). -/
def strToNumber (s : String) : Option Int :=
  match (jsTrim s).data with
  | [] => some 0
  | '-' :: rest =>
    if rest ≠ [] ∧ rest.all Char.isDigit then some (-(decListToNat rest : Int))
    else none
  | '+' :: rest =>
    if rest ≠ [] ∧ rest.all Char.isDigit then some (decListToNat rest)
    else none
  | l =>
    if l.all Char.isDigit then some (decListToNat l) else none

/-- `ToNumber` of a row-object property value (`none` is `undefined`, whose
numeric value is `NaN`; an object's is likewise modelled as `NaN`). -/
def toNumV : Option RVal → Option Int
  | some (.num n) => some n
  | some (.str s) => strToNumber s
  | some (.raw _) => none
  | none => none

/-- JavaScript `a < b` on two row-property values: lexicographic when both
are strings, else numeric with `NaN` making the comparison false. -/
def jsLtB : Option RVal → Option RVal → Bool
  | some (.str s), some (.str t) => jsStrLt s t
  | a, b =>
    match toNumV a, toNumV b with
    | some x, some y => decide (x < y)
    | _, _ => false

/-- JavaScript `a > b` on two row-property values. -/
def jsGtB : Option RVal → Option RVal → Bool
  | some (.str s), some (.str t) => jsStrLt t s
  | a, b =>
    match toNumV a, toNumV b with
    | some x, some y => decide (y < x)
    | _, _ => false

/-- Sort direction (`"asc" | "desc"`). -/
inductive SortDir where
  | asc
  | desc
deriving DecidableEq, Repr

/-- `SortConfig`: the active sort key and direction. -/
structure SortConfig where
  key : String
  direction : SortDir
deriving DecidableEq, Repr

/-- The comparator body of `sortedRows` applied to two cell values:
`-1`/`1` on `aVal < bVal`, `1`/`-1` on `aVal > bVal` (ascending/descending
respectively), `0` otherwise. -/
def cmpCell (dir : SortDir) (a b : Option RVal) : Int :=
  if jsLtB a b then (match dir with | .asc => -1 | .desc => 1)
  else if jsGtB a b then (match dir with | .asc => 1 | .desc => -1)
  else 0

/-- The `sortedRows` comparator on two normalized rows: compares the
property named by the sort key. -/
def cmpRows (dir : SortDir) (key : String) (a b : NormalizedRow) : Int :=
  cmpCell dir (a.lookup key) (b.lookup key)

/-- Stable insertion into a comparator-sorted list: the new element (which
originates earlier in the input than every element of the list) goes before
the first element it does not compare greater than. -/
def stableInsert (c : α → α → Int) (x : α) : List α → List α
  | [] => [x]
  | y :: ys => if c x y ≤ 0 then x :: y :: ys else y :: stableInsert c x ys

/-- Stable comparator sort (the required semantics of
`Array.prototype.sort`). -/
def stableSort (c : α → α → Int) (l : List α) : List α :=
  l.foldr (stableInsert c) []

/-- The `sortedRows` memo: the rows unchanged when there is no sort config
or its key is empty, else a stable sort of a copy under the comparator. -/
def sortedRows (cfg : Option SortConfig) (rows : List NormalizedRow) :
    List NormalizedRow :=
  match cfg with
  | none => rows
  | some c =>
    if c.key = "" then rows
    else stableSort (cmpRows c.direction c.key) rows

/-- `effectiveShouldPaginate = shouldPaginate && sortedRows.length >
rowsPerPage`. -/
def effectiveShouldPaginate (shouldPaginate : Bool) (len size : Nat) : Bool :=
  shouldPaginate && decide (size < len)

/-- `totalPages`: `ceil(len / size)` when pagination is effective, else 1. -/
def totalPages (eff : Bool) (len size : Nat) : Nat :=
  if eff then (len + size - 1) / size else 1

/-- The `paginatedRows` memo: the full sequence when pagination is not
effective, else `slice((page-1)*size, (page-1)*size + size)`. -/
def paginatedRows (l : List α) (page size : Nat) (eff : Bool) : List α :=
  if eff then (l.drop ((page - 1) * size)).take size else l

/-- The sort-related component state: the current sort config and current
page. -/
structure TableSortState where
  sortConfig : Option SortConfig
  currentPage : Nat
deriving DecidableEq, Repr

/-- The direction chosen by `handleSort`: descending when the same key is
already sorted ascending, else ascending. -/
def nextDirection (cur : Option SortConfig) (key : String) : SortDir :=
  match cur with
  | some c => if c.key = key ∧ c.direction = SortDir.asc then .desc else .asc
  | none => .asc

/-- `handleSort`: a no-op for non-sortable columns; otherwise sets the sort
config to the clicked key with the toggled direction and resets the current
page to 1. -/
def handleSort (st : TableSortState) (key : String) (isSortable : Bool) :
    TableSortState :=
  if isSortable then
    { sortConfig := some ⟨key, nextDirection st.sortConfig key⟩,
      currentPage := 1 }
  else st

/-- `parseFloat` applied to a width string, restricted to integer numerals:
skips leading whitespace, then parses an optionally signed digit prefix;
`NaN` (`none`) when no digit follows. -/
def parseFloatInt (s : String) : Option Int :=
  match s.data.dropWhile Char.isWhitespace with
  | '-' :: rest =>
    let ds := rest.takeWhile Char.isDigit
    if ds.isEmpty then none else some (-(decListToNat ds : Int))
  | '+' :: rest =>
    let ds := rest.takeWhile Char.isDigit
    if ds.isEmpty then none else some (decListToNat ds)
  | l =>
    let ds := l.takeWhile Char.isDigit
    if ds.isEmpty then none else some (decListToNat ds)

/-- `parseWidthValue`: a numeric value is returned as is, a string is
parsed with `parseFloat` (falling back when it parses to `NaN`), anything
else yields the fallback. -/
def parseWidthValue (value : WidthVal) (fallback : Int) : Int :=
  match value with
  | .num n => n
  | .str s =>
    match parseFloatInt s with
    | some p => p
    | none => fallback
  | .undef => fallback

/-- `minResizeWidth` captured by `handleMouseDown`:
`parseWidthValue(header?.minWidth, minColWidth)`. -/
def minResizeWidthOf (minWidth : WidthVal) (minColWidth : Int) : Int :=
  parseWidthValue minWidth minColWidth

/-- The width committed by one `handleMouseMove` step:
`Math.max(startWidth + deltaX, minResizeWidth)`. -/
def resizeWidth (startWidth deltaX minResizeWidth : Int) : Int :=
  max (startWidth + deltaX) minResizeWidth

/-- A value found under an accessor key in the persisted width JSON:
a number, a string, or some other JSON type. -/
inductive StoredVal where
  | num (n : Int)
  | str (s : String)
  | other
deriving DecidableEq, Repr

/-- The outcome of the `try` block's read in `loadStoredColumnWidths`:
`localStorage.getItem` threw, the raw value was absent/empty,
`JSON.parse` threw, the parsed value was falsy or not an object, or a
parsed JSON object. -/
inductive ReadOutcome where
  | throwsRead
  | missing
  | badJson
  | nonObject
  | object (fields : List (String × StoredVal))
deriving DecidableEq, Repr

/-- The overlay step of `loadStoredColumnWidths` for one fallback key: the
persisted value when it is a number or a string, else the fallback value. -/
def overlayStoredWidth (o : List (String × StoredVal)) (k : String)
    (w : WidthVal) : WidthVal :=
  match o.lookup k with
  | some (.num n) => .num n
  | some (.str s) => .str s
  | _ => w

/-- `loadStoredColumnWidths`: returns the fallback unless a storage key is
configured (a falsy — empty — key also bails out) and the store yields a
parsed object, in which case each fallback key whose persisted value is a
number or a string is overlaid; every exception inside the `try` is caught
and yields the fallback. -/
def loadStoredColumnWidths (storageKey : Option String)
    (read : ReadOutcome) (fallback : List (String × WidthVal)) :
    List (String × WidthVal) :=
  match storageKey with
  | none => fallback
  | some k =>
    if k = "" then fallback
    else
      match read with
      | .object o => fallback.map fun p => (p.1, overlayStoredWidth o p.1 p.2)
      | _ => fallback

/-- The `initialWidths` map built by the seeding effect: each header's
accessor mapped to its declared width (possibly `undefined`). -/
def initialWidths (headers : List TableHeader) : List (String × WidthVal) :=
  headers.map fun h => (h.accessor, h.width)

/-- The width map set by the seeding effect:
`loadStoredColumnWidths(initialWidths)`. -/
def seedColumnWidths (headers : List TableHeader)
    (storageKey : Option String) (read : ReadOutcome) :
    List (String × WidthVal) :=
  loadStoredColumnWidths storageKey read (initialWidths headers)

/-- The width-persistence effect: bails out without touching the store when
no (truthy) storage key is configured or the width map is empty, else its
outcome is exactly the outcome of `localStorage.setItem` — the source wraps
this call in no `try`/`catch`, so a throwing store makes the effect throw. -/
def persistColumnWidths (storageKey : Option String)
    (widths : List (String × WidthVal)) (setOutcome : Except Unit Unit) :
    Except Unit Unit :=
  match storageKey with
  | none => .ok ()
  | some k =>
    if k = "" then .ok ()
    else if widths.isEmpty then .ok ()
    else setOutcome

/-- Whether the component renders its empty state
(`sortedRows.length === 0` shows "No rows to display."). -/
def showsEmptyState (sortedLen : Nat) : Bool :=
  sortedLen == 0

/-- Whether the Previous/Next page controls render: the table (not the
empty state) must render, the footer row must render (`shouldPaginate &&
totalPages > 1`, or a rows-per-page selector is configured), and the
controls themselves require `totalPages > 1`. -/
def showsPageControls (sortedLen tp : Nat) (shouldPaginate : Bool)
    (hasRowsPerPageSelector : Bool) : Bool :=
  decide (0 < sortedLen) &&
    ((shouldPaginate && decide (1 < tp)) || hasRowsPerPageSelector) &&
    decide (1 < tp)

/-- The little-endian-free decimal digit list of a natural number (most
significant digit first): the reference rendering used to reason about
`Nat.repr` (the model of the decimal interpolation `` `${idx}` ``). -/
def decDigits (n : Nat) : List Char :=
  if _h : n < 10 then [Nat.digitChar n]
  else decDigits (n / 10) ++ [Nat.digitChar (n % 10)]
decreasing_by exact Nat.div_lt_self (by omega) (by omega)

/-! ## Claim theorems -/

/-- C9: normalization silently drops exactly the entries that are falsy or
not of object type — i.e. exactly the non-record entries — so the number of
normalized rows equals the number of object-valued input entries; the
filters and map are total, so no error is raised. -/
theorem c9_normalization_drop_count (headers : List TableHeader)
    (entries : List JSValue) :
    srcEntries entries = entries.filter isObjectEntry ∧
    (normalizeEntries headers entries).length
      = (entries.filter isObjectEntry).length := by
  have hsrc : srcEntries entries = entries.filter isObjectEntry := by
    rw [srcEntries, List.filter_filter]
    refine List.filter_congr fun e _ => ?_
    cases e <;> simp [jsTruthy, typeofIsObject, isObjectEntry]
  refine ⟨hsrc, ?_⟩
  rw [normalizeEntries, List.length_mapIdx, hsrc]

/-- C10: when `manualRowData` is not an array, the normalized row set is
empty, the sorted row set is empty, and the component renders its empty
state; no error is raised (every function involved is total). -/
theorem c10_non_array_input_renders_empty_state (headers : List TableHeader)
    (cfg : Option SortConfig) (v : JSValue) :
    rowsOf headers (.notArray v) = [] ∧
    sortedRows cfg (rowsOf headers (.notArray v)) = [] ∧
    showsEmptyState (sortedRows cfg (rowsOf headers (.notArray v))).length
      = true := by
  have hs : sortedRows cfg ([] : List NormalizedRow) = [] := by
    cases cfg with
    | none => rfl
    | some c =>
      rw [sortedRows]
      split <;> rfl
  exact ⟨rfl, hs, by rw [rowsOf, hs]; rfl⟩

/-- C6: clicking a non-sortable column's header leaves the state unchanged;
clicking a sortable column's header sets the sort key to that column, with
direction descending exactly when that column was already sorted ascending
and ascending in every other case, and resets the current page to 1. -/
theorem c6_handleSort_toggles_and_resets_page (st : TableSortState)
    (key : String) :
    handleSort st key false = st ∧
    (handleSort st key true).currentPage = 1 ∧
    (handleSort st key true).sortConfig
      = some ⟨key, nextDirection st.sortConfig key⟩ ∧
    (∀ c, st.sortConfig = some c → c.key = key → c.direction = SortDir.asc →
      nextDirection st.sortConfig key = SortDir.desc) ∧
    (∀ c, st.sortConfig = some c → ¬(c.key = key ∧ c.direction = SortDir.asc) →
      nextDirection st.sortConfig key = SortDir.asc) ∧
    (st.sortConfig = none → nextDirection st.sortConfig key = SortDir.asc) := by
  refine ⟨rfl, rfl, rfl, ?_, ?_, ?_⟩
  · intro c hc hk hd
    rw [hc, nextDirection, if_pos ⟨hk, hd⟩]
  · intro c hc hne
    rw [hc, nextDirection, if_neg hne]
  · intro hc
    rw [hc, nextDirection]

/-- C6 witness: with sort state `id` ascending, clicking the sortable
`id` header yields `id` descending with page reset to 1, and clicking a
non-sortable header is a no-op. -/
theorem c6_handleSort_witness :
    handleSort ⟨some ⟨"id", .asc⟩, 4⟩ "id" false = ⟨some ⟨"id", .asc⟩, 4⟩ ∧
    (handleSort ⟨some ⟨"id", .asc⟩, 4⟩ "id" true).currentPage = 1 ∧
    nextDirection (some ⟨"id", .asc⟩) "id" = SortDir.desc := by
  refine ⟨(c6_handleSort_toggles_and_resets_page ⟨some ⟨"id", .asc⟩, 4⟩ "id").1,
    (c6_handleSort_toggles_and_resets_page ⟨some ⟨"id", .asc⟩, 4⟩ "id").2.1,
    (c6_handleSort_toggles_and_resets_page ⟨some ⟨"id", .asc⟩, 4⟩ "id").2.2.2.1
      ⟨"id", .asc⟩ rfl rfl rfl⟩

/-- C3 counterexample: a column with declared `minWidth` 10 under global
`minColWidth` 50 can be dragged down to width 10, strictly below
`max(minWidth, minColWidth) = 50`, refuting the claimed `max` floor. -/
theorem c3_resize_floor_counterexample :
    resizeWidth 100 (-95) (minResizeWidthOf (.num 10) 50) = 10 ∧
    resizeWidth 100 (-95) (minResizeWidthOf (.num 10) 50) < max 10 50 := by
  decide

/-- C3 (amended): each drag move sets the width to
`max(startWidth + delta, parseWidthValue(minWidth, minColWidth))` — the
floor is the column's parseable declared minWidth, with the global
`minColWidth` only as fallback, not the max of the two — and the resulting
width is never below that floor. -/
theorem c3_resize_floor_amended (startWidth deltaX : Int) (minWidth : WidthVal)
    (minColWidth : Int) :
    resizeWidth startWidth deltaX (minResizeWidthOf minWidth minColWidth)
      = max (startWidth + deltaX) (parseWidthValue minWidth minColWidth) ∧
    parseWidthValue minWidth minColWidth
      ≤ resizeWidth startWidth deltaX (minResizeWidthOf minWidth minColWidth) :=
  ⟨rfl, le_max_right _ _⟩

/-- C4 counterexample: with a configured storage key and a non-empty width
map, a throwing `localStorage.setItem` makes the width-persistence effect
itself throw — the write is not wrapped in `try`/`catch`, so the exception
propagates. -/
theorem c4_write_exception_propagates_counterexample :
    persistColumnWidths (some "widths") [("a", .num 120)] (.error ())
      = .error () := by
  rfl

/-- C4 (amended): a read exception is caught and treated as "no stored
value" (the fallback is returned), but the width-persistence write has no
`try`/`catch`: whenever the write is actually attempted its outcome is
exactly the store's outcome, so a store exception propagates. -/
theorem c4_storage_error_handling_amended (sk : Option String)
    (fb : List (String × WidthVal)) (k : String)
    (w : List (String × WidthVal)) (out : Except Unit Unit)
    (hk : k ≠ "") (hw : w ≠ []) :
    loadStoredColumnWidths sk .throwsRead fb = fb ∧
    persistColumnWidths (some k) w out = out := by
  constructor
  · cases sk with
    | none => rfl
    | some k' =>
      by_cases h : k' = "" <;> simp [loadStoredColumnWidths, h]
  · rw [persistColumnWidths, if_neg hk, if_neg]
    simp [List.isEmpty_iff, hw]

/-- C4 witness: read-throw yields the fallback map and a successful write
passes through, at concrete inputs. -/
theorem c4_storage_error_handling_witness :
    ("widths" ≠ "") ∧ ([(("a" : String), WidthVal.num 120)] ≠ []) ∧
    loadStoredColumnWidths (some "widths") .throwsRead [("a", .num 7)]
      = [("a", .num 7)] ∧
    persistColumnWidths (some "widths") [("a", .num 120)] (.ok ()) = .ok () :=
  ⟨by decide, by decide,
    (c4_storage_error_handling_amended (some "widths") [("a", .num 7)]
      "widths" [("a", .num 120)] (.ok ()) (by decide) (by decide)).1,
    (c4_storage_error_handling_amended (some "widths") [("a", .num 7)]
      "widths" [("a", .num 120)] (.ok ()) (by decide) (by decide)).2⟩

/-- C7: with at most `rowsPerPage` rows, pagination is not effective even
when `shouldPaginate` is true: the full sorted row set is returned
regardless of the current page, total pages is 1, and the Previous/Next
controls do not render. -/
theorem c7_pagination_gating (sp : Bool) (l : List NormalizedRow)
    (size page : Nat) (hasSel : Bool) (h : l.length ≤ size) :
    paginatedRows l page size (effectiveShouldPaginate sp l.length size) = l ∧
    totalPages (effectiveShouldPaginate sp l.length size) l.length size = 1 ∧
    showsPageControls l.length
      (totalPages (effectiveShouldPaginate sp l.length size) l.length size)
      sp hasSel = false := by
  have hlt : ¬ (size < l.length) := by omega
  have he : effectiveShouldPaginate sp l.length size = false := by
    simp [effectiveShouldPaginate, hlt]
  refine ⟨by simp [paginatedRows, he], by simp [totalPages, he], ?_⟩
  simp [totalPages, he, showsPageControls]

/-- C7 witness: 10 rows with `rowsPerPage = 60` and `shouldPaginate = true`
render unpaginated (here: 2 rows, page 5). -/
theorem c7_pagination_gating_witness :
    ([[("id", RVal.str "a")], [("id", RVal.str "b")]].length ≤ 60) ∧
    paginatedRows [[("id", RVal.str "a")], [("id", RVal.str "b")]] 5 60
      (effectiveShouldPaginate true 2 60)
      = [[("id", RVal.str "a")], [("id", RVal.str "b")]] :=
  ⟨by decide,
    (c7_pagination_gating true [[("id", RVal.str "a")], [("id", RVal.str "b")]]
      60 5 true (by decide)).1⟩

/-- Concatenating the `size`-wide slices at offsets `0, size, 2*size, ...`
for `n` slices reproduces a list of length at most `n * size`. -/
theorem slices_cover {α : Type} (size : Nat) (hs : 0 < size) :
    ∀ (n : Nat) (l : List α), l.length ≤ n * size →
      (List.range n).flatMap (fun k => (l.drop (k * size)).take size) = l := by
  intro n
  induction n with
  | zero =>
    intro l h
    have hl : l.length = 0 := by simpa using h
    have : l = [] := List.eq_nil_of_length_eq_zero hl
    simp [this]
  | succ n ih =>
    intro l h
    rw [List.range_succ_eq_map]
    rw [List.flatMap_cons]
    have hstep : ∀ k : Nat,
        ((l.drop ((k + 1) * size)).take size)
          = (((l.drop size).drop (k * size)).take size) := by
      intro k
      rw [List.drop_drop]
      congr 1
      ring
    have hmul : (n + 1) * size = n * size + size := by ring
    have htail : (List.map Nat.succ (List.range n)).flatMap
        (fun k => (l.drop (k * size)).take size)
        = (List.range n).flatMap
            (fun k => ((l.drop size).drop (k * size)).take size) := by
      rw [List.flatMap_map]
      exact List.flatMap_congr fun k _ => hstep k
    have hlen : (l.drop size).length ≤ n * size := by
      rw [List.length_drop]
      rw [hmul] at h
      omega
    rw [htail, ih (l.drop size) hlen]
    simp

/-- `len ≤ ceil(len / size) * size` for positive `size`. -/
theorem le_ceilPages_mul (size len : Nat) (hs : 0 < size) :
    len ≤ ((len + size - 1) / size) * size := by
  have hdm := Nat.div_add_mod (len + size - 1) size
  have hlt : (len + size - 1) % size < size := Nat.mod_lt _ hs
  have hcomm : ((len + size - 1) / size) * size
      = size * ((len + size - 1) / size) := Nat.mul_comm _ _
  omega

/-- C5: for every row list and every `rowsPerPage ≥ 1` (with
`shouldPaginate` on), concatenating the page slices for pages
`1 .. totalPages` in order reproduces the full sorted sequence exactly. -/
theorem c5_pagination_coverage (l : List NormalizedRow) (size : Nat)
    (hs : 1 ≤ size) :
    (List.range
        (totalPages (effectiveShouldPaginate true l.length size)
          l.length size)).flatMap
      (fun k => paginatedRows l (k + 1) size
        (effectiveShouldPaginate true l.length size)) = l := by
  by_cases h : size < l.length
  · have he : effectiveShouldPaginate true l.length size = true := by
      simp [effectiveShouldPaginate, h]
    rw [he]
    simp only [totalPages, paginatedRows, if_pos trivial, Nat.add_sub_cancel]
    exact slices_cover size (by omega) _ l
      (le_ceilPages_mul size l.length (by omega))
  · have he : effectiveShouldPaginate true l.length size = false := by
      simp [effectiveShouldPaginate, h]
    rw [he]
    have h1 : List.range 1 = [0] := rfl
    simp [totalPages, paginatedRows, h1]

/-- C5 witness: 5 rows at 2 per page concatenate back to the full list
over the 3 pages. -/
theorem c5_pagination_coverage_witness :
    (1 ≤ 2) ∧
    (List.range
        (totalPages (effectiveShouldPaginate true 5 2) 5 2)).flatMap
      (fun k => paginatedRows
        [[("#", RVal.num 1)], [("#", RVal.num 2)], [("#", RVal.num 3)],
         [("#", RVal.num 4)], [("#", RVal.num 5)]] (k + 1) 2
        (effectiveShouldPaginate true 5 2))
      = [[("#", RVal.num 1)], [("#", RVal.num 2)], [("#", RVal.num 3)],
         [("#", RVal.num 4)], [("#", RVal.num 5)]] :=
  ⟨by decide,
    c5_pagination_coverage
      [[("#", RVal.num 1)], [("#", RVal.num 2)], [("#", RVal.num 3)],
       [("#", RVal.num 4)], [("#", RVal.num 5)]] 2 (by decide)⟩

/-- C2 counterexample: the comparator compares the numeric-like strings
`"9"` and `"10"` lexically — `"9"` compares greater than `"10"` although
`9 < 10` — and an ascending sort on such a field places `"10"` before
`"9"`, refuting the claimed numeric comparison of numeric-like values. -/
theorem c2_sort_comparison_counterexample :
    cmpCell .asc (some (.str "9")) (some (.str "10")) = 1 ∧ ((9 : Int) < 10) ∧
    sortedRows (some ⟨"v", .asc⟩)
        [[("v", RVal.str "9")], [("v", RVal.str "10")]]
      = [[("v", RVal.str "10")], [("v", RVal.str "9")]] := by
  decide

/-- C2 (amended): the comparator applies the host relational operators to
the raw cell values — numeric comparison when both values are numbers,
plain lexicographic comparison when both are strings (so numeric-like
strings compare lexically) — and direction `"desc"` negates the `"asc"`
comparator on every pair of rows. -/
theorem c2_sort_comparison_amended (key : String) (a b : NormalizedRow) :
    cmpRows .desc key a b = - cmpRows .asc key a b ∧
    (∀ s t : String,
      cmpCell .asc (some (.str s)) (some (.str t)) < 0 ↔ jsStrLt s t = true) ∧
    (∀ x y : Int,
      cmpCell .asc (some (.num x)) (some (.num y)) < 0 ↔ x < y) := by
  refine ⟨?_, ?_, ?_⟩
  · rw [cmpRows, cmpRows, cmpCell, cmpCell]
    cases hlt : jsLtB (a.lookup key) (b.lookup key) <;>
      cases hgt : jsGtB (a.lookup key) (b.lookup key) <;> simp
  · intro s t
    rw [cmpCell]
    show (if jsStrLt s t then (-1 : Int) else if jsStrLt t s then 1 else 0) < 0
      ↔ jsStrLt s t = true
    cases h : jsStrLt s t <;> simp
    split <;> simp
  · intro x y
    rw [cmpCell]
    show (if decide (x < y) then (-1 : Int)
        else if decide (y < x) then 1 else 0) < 0 ↔ x < y
    by_cases h : x < y <;> simp [h]
    split <;> simp

/-- C2 witness: descending negates ascending on a concrete row pair, and
the string/number comparator characterizations hold at concrete values. -/
theorem c2_sort_comparison_witness :
    cmpRows .desc "v" [("v", RVal.str "9")] [("v", RVal.str "10")]
      = - cmpRows .asc "v" [("v", RVal.str "9")] [("v", RVal.str "10")] ∧
    (cmpCell .asc (some (.str "9")) (some (.str "10")) < 0
      ↔ jsStrLt "9" "10" = true) ∧
    (cmpCell .asc (some (.num 9)) (some (.num 10)) < 0 ↔ (9 : Int) < 10) :=
  ⟨(c2_sort_comparison_amended "v" [("v", RVal.str "9")]
      [("v", RVal.str "10")]).1,
    (c2_sort_comparison_amended "v" [("v", RVal.str "9")]
      [("v", RVal.str "10")]).2.1 "9" "10",
    (c2_sort_comparison_amended "v" [("v", RVal.str "9")]
      [("v", RVal.str "10")]).2.2 9 10⟩

/-- Looking a key up in a key-preserving per-entry rewrite of an
association list rewrites the looked-up value. -/
theorem lookup_map_keyed {β : Type} (f : String → β → β)
    (l : List (String × β)) (k : String) :
    (l.map fun p => (p.1, f p.1 p.2)).lookup k = (l.lookup k).map (f k) := by
  induction l with
  | nil => rfl
  | cons p l ih =>
    obtain ⟨a, b⟩ := p
    by_cases h : k = a
    · subst h
      simp [List.lookup]
    · simp [List.lookup, h, ih, beq_false_of_ne h]

/-- With pairwise distinct accessors, `initialWidths` maps a header's
accessor to its declared width. -/
theorem lookup_initialWidths (headers : List TableHeader) (h : TableHeader)
    (hmem : h ∈ headers)
    (hnd : (headers.map TableHeader.accessor).Nodup) :
    (initialWidths headers).lookup h.accessor = some h.width := by
  induction headers with
  | nil => cases hmem
  | cons hd tl ih =>
    rw [List.map_cons, List.nodup_cons] at hnd
    rcases List.mem_cons.mp hmem with heq | htl
    · subst heq
      simp [initialWidths, List.lookup]
    · have hne : h.accessor ≠ hd.accessor := by
        intro hcontra
        exact hnd.1 (hcontra ▸ List.mem_map_of_mem TableHeader.accessor htl)
      simp only [initialWidths, List.map_cons, List.lookup,
        beq_false_of_ne hne]
      exact ih htl hnd.2

/-- An accessor not among the headers is absent from `initialWidths`. -/
theorem lookup_initialWidths_none (headers : List TableHeader) (a : String)
    (ha : a ∉ headers.map TableHeader.accessor) :
    (initialWidths headers).lookup a = none := by
  induction headers with
  | nil => rfl
  | cons hd tl ih =>
    rw [List.map_cons, List.mem_cons, not_or] at ha
    simp only [initialWidths, List.map_cons, List.lookup,
      beq_false_of_ne ha.1]
    exact ih ha.2

/-- C8: after seeding with a parsed persisted object, a header's resolved
width is the persisted value when that value is a number or a string and
the declared width otherwise, and accessors outside the current header set
resolve to nothing (their persisted entries are ignored). -/
theorem c8_width_seeding_precedence (headers : List TableHeader) (k : String)
    (store : List (String × StoredVal)) (h : TableHeader) (a : String)
    (hnd : (headers.map TableHeader.accessor).Nodup) (hk : k ≠ "")
    (hmem : h ∈ headers) (ha : a ∉ headers.map TableHeader.accessor) :
    (seedColumnWidths headers (some k) (.object store)).lookup h.accessor
      = some (overlayStoredWidth store h.accessor h.width) ∧
    (∀ n, store.lookup h.accessor = some (.num n) →
      overlayStoredWidth store h.accessor h.width = .num n) ∧
    (∀ s, store.lookup h.accessor = some (.str s) →
      overlayStoredWidth store h.accessor h.width = .str s) ∧
    (store.lookup h.accessor = none ∨ store.lookup h.accessor = some .other →
      overlayStoredWidth store h.accessor h.width = h.width) ∧
    (seedColumnWidths headers (some k) (.object store)).lookup a = none := by
  have hseed : seedColumnWidths headers (some k) (.object store)
      = (initialWidths headers).map
          fun p => (p.1, overlayStoredWidth store p.1 p.2) := by
    rw [seedColumnWidths, loadStoredColumnWidths]
    simp [hk]
  refine ⟨?_, ?_, ?_, ?_, ?_⟩
  · rw [hseed, lookup_map_keyed, lookup_initialWidths headers h hmem hnd]
    rfl
  · intro n hn
    rw [overlayStoredWidth, hn]
  · intro s hstr
    rw [overlayStoredWidth, hstr]
  · intro hother
    rcases hother with hnone | hoth
    · rw [overlayStoredWidth, hnone]
    · rw [overlayStoredWidth, hoth]
  · rw [hseed, lookup_map_keyed, lookup_initialWidths_none headers a ha]
    rfl

/-- C8 witness: a numeric persisted value wins over the declared width, an
ill-typed persisted value is ignored, and a persisted entry for a dropped
accessor is ignored, at concrete inputs. -/
theorem c8_width_seeding_precedence_witness :
    (seedColumnWidths [⟨"a", "A", true, .num 7, .undef⟩] (some "k")
        (.object [("a", .num 33), ("gone", .num 1)])).lookup "a"
      = some (.num 33) ∧
    (seedColumnWidths [⟨"a", "A", true, .num 7, .undef⟩] (some "k")
        (.object [("a", .other)])).lookup "a" = some (.num 7) ∧
    (seedColumnWidths [⟨"a", "A", true, .num 7, .undef⟩] (some "k")
        (.object [("gone", .num 1)])).lookup "gone" = none := by
  refine ⟨?_, ?_, ?_⟩
  · have h1 := (c8_width_seeding_precedence [⟨"a", "A", true, .num 7, .undef⟩]
      "k" [("a", .num 33), ("gone", .num 1)] ⟨"a", "A", true, .num 7, .undef⟩
      "zz" (by decide) (by decide) (by decide) (by decide)).1
    rw [h1]
    rfl
  · have h2 := (c8_width_seeding_precedence [⟨"a", "A", true, .num 7, .undef⟩]
      "k" [("a", .other)] ⟨"a", "A", true, .num 7, .undef⟩
      "zz" (by decide) (by decide) (by decide) (by decide)).1
    rw [h2]
    rfl
  · exact (c8_width_seeding_precedence [⟨"a", "A", true, .num 7, .undef⟩]
      "k" [("gone", .num 1)] ⟨"a", "A", true, .num 7, .undef⟩
      "gone" (by decide) (by decide) (by decide) (by decide)).2.2.2.2
theorem decDigits_lt (n : Nat) (h : n < 10) : decDigits n = [Nat.digitChar n] := by
  rw [decDigits, dif_pos h]

theorem decDigits_ge (n : Nat) (h : ¬ n < 10) :
    decDigits n = decDigits (n / 10) ++ [Nat.digitChar (n % 10)] := by
  rw [decDigits]
  rw [dif_neg h]

theorem decDigits_ne_nil (n : Nat) : decDigits n ≠ [] := by
  by_cases h : n < 10
  · rw [decDigits_lt n h]
    simp
  · rw [decDigits_ge n h]
    simp

theorem digitChar_isDigit (m : Nat) (h : m < 10) :
    (Nat.digitChar m).isDigit = true := by
  have hfin : ∀ m : Fin 10, (Nat.digitChar m).isDigit = true := by decide
  exact hfin ⟨m, h⟩

theorem digitChar_inj (m k : Nat) (hm : m < 10) (hk : k < 10)
    (h : Nat.digitChar m = Nat.digitChar k) : m = k := by
  have hfin : ∀ m k : Fin 10, Nat.digitChar m = Nat.digitChar k → m = k := by
    decide
  exact Fin.mk.inj_iff.mp (hfin ⟨m, hm⟩ ⟨k, hk⟩ h)

theorem decDigits_isDigit (n : Nat) : ∀ c ∈ decDigits n, c.isDigit = true := by
  induction n using Nat.strong_induction_on with
  | _ n ih =>
    by_cases h : n < 10
    · rw [decDigits_lt n h]
      intro c hc
      rw [List.mem_singleton] at hc
      subst hc
      exact digitChar_isDigit n h
    · rw [decDigits_ge n h]
      intro c hc
      rcases List.mem_append.mp hc with hc1 | hc2
      · exact ih (n / 10) (Nat.div_lt_self (by omega) (by omega)) c hc1
      · rw [List.mem_singleton] at hc2
        subst hc2
        exact digitChar_isDigit _ (Nat.mod_lt _ (by omega))

theorem decDigits_inj : ∀ (a b : Nat), decDigits a = decDigits b → a = b := by
  intro a
  induction a using Nat.strong_induction_on with
  | _ a ih =>
    intro b h
    by_cases ha : a < 10 <;> by_cases hb : b < 10
    · rw [decDigits_lt a ha, decDigits_lt b hb] at h
      exact digitChar_inj a b ha hb (List.singleton_inj.mp h)
    · exfalso
      rw [decDigits_lt a ha, decDigits_ge b hb] at h
      have hlen := congrArg List.length h
      have hpos := List.length_pos.mpr (decDigits_ne_nil (b / 10))
      rw [List.length_singleton, List.length_append, List.length_singleton]
        at hlen
      omega
    · exfalso
      rw [decDigits_ge a ha, decDigits_lt b hb] at h
      have hlen := congrArg List.length h
      have hpos := List.length_pos.mpr (decDigits_ne_nil (a / 10))
      rw [List.length_append, List.length_singleton, List.length_singleton]
        at hlen
      omega
    · rw [decDigits_ge a ha, decDigits_ge b hb] at h
      obtain ⟨h1, h2⟩ := List.append_inj' h rfl
      have hdiv : a / 10 = b / 10 :=
        ih (a / 10) (Nat.div_lt_self (by omega) (by omega)) (b / 10) h1
      have hmod : a % 10 = b % 10 :=
        digitChar_inj _ _ (Nat.mod_lt _ (by omega)) (Nat.mod_lt _ (by omega))
          (List.singleton_inj.mp h2)
      omega

theorem toDigitsCore_eq_decDigits :
    ∀ (g n : Nat) (ds : List Char), n < 10 ^ (g + 1) →
      Nat.toDigitsCore 10 (g + 1) n ds = decDigits n ++ ds := by
  intro g
  induction g with
  | zero =>
    intro n ds h
    have h10 : n < 10 := by simpa using h
    have hdiv : n / 10 = 0 := Nat.div_eq_of_lt h10
    simp [Nat.toDigitsCore, hdiv, Nat.mod_eq_of_lt h10, decDigits_lt n h10]
  | succ g ih =>
    intro n ds h
    by_cases h10 : n < 10
    · have hdiv : n / 10 = 0 := Nat.div_eq_of_lt h10
      simp [Nat.toDigitsCore, hdiv, Nat.mod_eq_of_lt h10, decDigits_lt n h10]
    · have hdiv : n / 10 ≠ 0 := by omega
      have hlt : n / 10 < 10 ^ (g + 1) := by
        rw [Nat.div_lt_iff_lt_mul (by omega)]
        calc n < 10 ^ (g + 2) := h
        _ = 10 ^ (g + 1) * 10 := by ring
      have hstep : Nat.toDigitsCore 10 (g + 2) n ds
          = Nat.toDigitsCore 10 (g + 1) (n / 10)
              (Nat.digitChar (n % 10) :: ds) := by
        simp [Nat.toDigitsCore, hdiv]
      rw [hstep, ih (n / 10) _ hlt, decDigits_ge n h10, List.append_assoc]
      rfl

theorem repr_data_eq_decDigits (n : Nat) : (Nat.repr n).data = decDigits n := by
  have hlt : n < 10 ^ (n + 1) :=
    lt_of_lt_of_le (Nat.lt_pow_self (by norm_num) n)
      (Nat.pow_le_pow_right (by norm_num) (Nat.le_succ n))
  show (Nat.toDigits 10 n).asString.data = decDigits n
  rw [Nat.toDigits, toDigitsCore_eq_decDigits n n [] hlt]
  simp [List.asString]

theorem digits_w_append_cancel :
    ∀ (u1 : List Char), (∀ c ∈ u1, c.isDigit = true) →
      ∀ (u2 : List Char), (∀ c ∈ u2, c.isDigit = true) →
      ∀ (v1 v2 : List Char), u1 ++ 'w' :: v1 = u2 ++ 'w' :: v2 → u1 = u2 := by
  intro u1
  induction u1 with
  | nil =>
    intro _ u2 h2 v1 v2 heq
    cases u2 with
    | nil => rfl
    | cons d ds =>
      exfalso
      have hd : 'w' = d := by
        have := congrArg List.head? heq
        simpa using this
      have := h2 d (List.mem_cons_self d ds)
      rw [← hd] at this
      simp [Char.isDigit] at this
  | cons c cs ih =>
    intro h1 u2 h2 v1 v2 heq
    cases u2 with
    | nil =>
      exfalso
      have hd : c = 'w' := by
        have := congrArg List.head? heq
        simpa using this
      have := h1 c (List.mem_cons_self c cs)
      rw [hd] at this
      simp [Char.isDigit] at this
    | cons d ds =>
      simp only [List.cons_append, List.cons.injEq] at heq
      obtain ⟨hcd, htl⟩ := heq
      have htail : cs = ds :=
        ih (fun x hx => h1 x (List.mem_cons_of_mem c hx)) ds
          (fun x hx => h2 x (List.mem_cons_of_mem d hx)) v1 v2 htl
      rw [hcd, htail]

theorem rowSuffix_inj (s t : String) (a b : Nat)
    (h : s ++ "-row" ++ Nat.repr a = t ++ "-row" ++ Nat.repr b) : a = b := by
  have hdata : (s.data ++ ('-' :: 'r' :: 'o' :: 'w' :: [])) ++ (Nat.repr a).data
      = (t.data ++ ('-' :: 'r' :: 'o' :: 'w' :: [])) ++ (Nat.repr b).data := by
    have hcongr := congrArg String.data h
    rw [String.data_append, String.data_append, String.data_append,
      String.data_append] at hcongr
    exact hcongr
  have hrev := congrArg List.reverse hdata
  rw [List.reverse_append, List.reverse_append, List.reverse_append,
    List.reverse_append] at hrev
  simp only [List.reverse_cons, List.reverse_nil, List.nil_append,
    List.cons_append, List.append_assoc] at hrev
  have hrevshape :
      (Nat.repr a).data.reverse ++ 'w' :: ('o' :: 'r' :: '-' :: s.data.reverse)
        = (Nat.repr b).data.reverse
            ++ 'w' :: ('o' :: 'r' :: '-' :: t.data.reverse) := by
    simpa using hrev
  have hda : ∀ c ∈ (Nat.repr a).data.reverse, c.isDigit = true := by
    intro c hc
    rw [List.mem_reverse] at hc
    rw [repr_data_eq_decDigits] at hc
    exact decDigits_isDigit a c hc
  have hdb : ∀ c ∈ (Nat.repr b).data.reverse, c.isDigit = true := by
    intro c hc
    rw [List.mem_reverse] at hc
    rw [repr_data_eq_decDigits] at hc
    exact decDigits_isDigit b c hc
  have hu : (Nat.repr a).data.reverse = (Nat.repr b).data.reverse :=
    digits_w_append_cancel _ hda _ hdb _ _ hrevshape
  have hdd : decDigits a = decDigits b := by
    have := List.reverse_injective hu
    rw [repr_data_eq_decDigits, repr_data_eq_decDigits] at this
    exact this
  exact decDigits_inj a b hdd

/-- The overwrite branch of `jsSet` leaves lookups of other keys
unchanged. -/
theorem lookup_map_set_ne (k k' : String) (v : RVal)
    (ps : List (String × RVal)) (h : k ≠ k') :
    (ps.map fun p => if p.1 == k' then (p.1, v) else p).lookup k
      = ps.lookup k := by
  induction ps with
  | nil => rfl
  | cons p ps ih =>
    obtain ⟨a, b⟩ := p
    simp only [beq_iff_eq] at ih ⊢
    by_cases hak : a = k'
    · subst hak
      simp [List.lookup_cons, beq_false_of_ne h, ih]
    · by_cases hka : k = a
      · subst hka
        simp [List.lookup_cons, beq_iff_eq, hak]
      · simp [List.lookup_cons, beq_false_of_ne hka, hak, ih]

/-- The append branch of `jsSet` leaves lookups of other keys
unchanged. -/
theorem lookup_append_single_ne (k k' : String) (v : RVal)
    (ps : List (String × RVal)) (h : k ≠ k') :
    (ps ++ [(k', v)]).lookup k = ps.lookup k := by
  induction ps with
  | nil => simp [List.lookup_cons, beq_false_of_ne h]
  | cons p ps ih =>
    obtain ⟨a, b⟩ := p
    by_cases hka : k = a
    · subst hka
      simp [List.lookup_cons, beq_iff_eq]
    · simp [List.lookup_cons, beq_false_of_ne hka, ih]

/-- Assigning one property leaves lookups of every other key unchanged. -/
theorem lookup_jsSet_ne (o : List (String × RVal)) (k k' : String)
    (v : RVal) (h : k ≠ k') :
    (jsSet o k' v).lookup k = o.lookup k := by
  rw [jsSet]
  split
  · exact lookup_map_set_ne k k' v o h
  · exact lookup_append_single_ne k k' v o h

/-- The accessor-materialization fold of `normalizeEntry` leaves lookups
of keys outside the header accessors unchanged. -/
theorem lookup_foldl_assign (full : JSValue) (k : String) :
    ∀ (hs : List TableHeader) (base : NormalizedRow),
      k ∉ hs.map TableHeader.accessor →
      (hs.foldl
          (fun b h =>
            if h.accessor ∈ ["#", "details_meta"] then b
            else jsSet b h.accessor (materializeField full h.accessor))
          base).lookup k
        = base.lookup k := by
  intro hs
  induction hs with
  | nil => intro base _; rfl
  | cons hd tl ih =>
    intro base hk
    rw [List.map_cons, List.mem_cons, not_or] at hk
    rw [List.foldl_cons]
    rw [ih _ hk.2]
    split
    · rfl
    · exact lookup_jsSet_ne base k hd.accessor _ hk.1

/-- When no header accessor is literally `"id"`, the normalized row object
keeps the computed `makeSafeId` under its `id` property. -/
theorem lookup_normalizeEntry_id (headers : List TableHeader)
    (full : JSValue) (idx : Nat)
    (h : "id" ∉ headers.map TableHeader.accessor) :
    (normalizeEntry headers full idx).lookup "id"
      = some (.str (makeSafeId full idx)) := by
  rw [normalizeEntry, lookup_foldl_assign full "id" headers _ h]
  rfl

/-- C1 counterexample: two distinct raw rows that both carry the non-empty
`id` field value `"x"` normalize to two rows with the same id — the id is
not unique within the dataset, refuting the claimed uniqueness. -/
theorem c1_id_uniqueness_counterexample :
    (rowsOf [] (.arr [.obj [("id", .str "x"), ("name", .str "a")],
        .obj [("id", .str "x"), ("name", .str "b")]])).length = 2 ∧
    ¬ ((rowsOf [] (.arr [.obj [("id", .str "x"), ("name", .str "a")],
        .obj [("id", .str "x"), ("name", .str "b")]])).map
          (fun r => r.lookup "id")).Nodup := by
  decide

/-- C1 (amended): the id is derived in priority order from (a) the trimmed
non-empty `id` field, used verbatim, else (b) the hyphen-joined fallback
composite suffixed with `-row` and the positional index; rows taking the
fallback branch receive pairwise distinct ids (the index suffix guarantees
it), but branch (a) performs no deduplication, so rows sharing a non-empty
`id` field value share an id; the computed id survives into the normalized
row object whenever no column accessor is literally `id`. -/
theorem c1_id_derivation_amended (full : JSValue) (idx : Nat) :
    (v1Of full ≠ "" → makeSafeId full idx = v1Of full) ∧
    (v1Of full = "" →
      makeSafeId full idx = v2Of full ++ "-row" ++ Nat.repr idx) ∧
    (∀ (full2 : JSValue) (idx2 : Nat), v1Of full = "" → v1Of full2 = "" →
      idx ≠ idx2 → makeSafeId full idx ≠ makeSafeId full2 idx2) ∧
    (∀ headers : List TableHeader, "id" ∉ headers.map TableHeader.accessor →
      (normalizeEntry headers full idx).lookup "id"
        = some (.str (makeSafeId full idx))) := by
  refine ⟨?_, ?_, ?_, ?_⟩
  · intro h
    rw [makeSafeId, if_neg h]
  · intro h
    rw [makeSafeId, if_pos h]
  · intro full2 idx2 h1 h2 hne heq
    rw [makeSafeId, if_pos h1, makeSafeId, if_pos h2] at heq
    exact hne (rowSuffix_inj _ _ _ _ heq)
  · intro headers hh
    exact lookup_normalizeEntry_id headers full idx hh

/-- C1 witness: two id-less rows at indices 0 and 1 receive distinct
fallback ids. -/
theorem c1_id_derivation_witness :
    v1Of (.obj [("order_id", .num 5)]) = "" ∧ (0 : Nat) ≠ 1 ∧
    makeSafeId (.obj [("order_id", .num 5)]) 0
      ≠ makeSafeId (.obj [("order_id", .num 5)]) 1 :=
  ⟨by decide, by decide,
    (c1_id_derivation_amended (.obj [("order_id", .num 5)]) 0).2.2.1
      (.obj [("order_id", .num 5)]) 1 (by decide) (by decide) (by decide)⟩
